import Mathlib

/-!
Verification of the build/reload coordinator of the suddenly-compiler
repository (src/src/index.ts, src/src/util.ts).  JS strings are embedded as
`List Char`; the module system, filesystem and event loop are embedded as
explicit state passing; the watch/bundler callbacks are embedded as state
transition functions that also report the externally observable actions they
perform.
-/

namespace SuddenlyCompiler

/-! ## Server Process Loader (src/src/util.ts) -/

/-- A JavaScript value as far as loadServer inspects it: an identity tag
(which concrete value it is) and whether a listen function is exposed
(typeof server.listen is a function). -/
structure ServerValue : Type where
  tag : Nat
  listens : Bool
deriving DecidableEq

/-- A loaded module: an optional default export (present iff typeof
server.default is not undefined) and the module value itself.  loadServer
unwraps at most one level of default. -/
structure ModuleValue : Type where
  defaultExport : Option ServerValue
  self : ServerValue
deriving DecidableEq

/-- Failures of loadServer: the require throws (LoadError), or the loaded
value does not respond to listen (ShapeError, with its message). -/
inductive LoadFailure : Type where
  | loadError : LoadFailure
  | shapeError : List Char → LoadFailure
deriving DecidableEq

/-- The require cache (require.cache): resolved keys mapped to module
values. -/
abbrev RequireCache := List (List Char × ModuleValue)

/-- JS String.prototype.includes: target occurs as a substring of key. -/
def includesStr (key target : List Char) : Bool := decide (target <:+: key)

/-- src/src/util.ts clearRequireCache: delete every cache key that contains
the target string. -/
def clearRequireCache (target : List Char) (cache : RequireCache) : RequireCache :=
  cache.filter (fun kv => !(includesStr kv.1 target))

/-- Key lookup in the require cache. -/
def cacheLookup (p : List Char) : RequireCache → Option ModuleValue
  | [] => none
  | (k, v) :: rest => if k = p then some v else cacheLookup p rest

/-- Node require against an abstract disk: a cache hit returns the memoized
module; otherwise the module is read from disk and memoized.  A failed
require (no module on disk) yields none. -/
def requireModule (disk : List Char → Option ModuleValue) (cache : RequireCache)
    (p : List Char) : Option ModuleValue × RequireCache :=
  match cacheLookup p cache with
  | some m => (some m, cache)
  | none =>
    match disk p with
    | some m => (some m, (p, m) :: cache)
    | none => (none, cache)

/-- src/src/util.ts loadServer: if typeof server.default is defined, unwrap
it, else use the module value directly. -/
def unwrapDefault (server : ModuleValue) : ServerValue :=
  match server.defaultExport with
  | some d => d
  | none => server.self

/-- The ShapeError message thrown by loadServer. -/
def listenErrMsg (serverPath : List Char) : List Char :=
  serverPath ++ (" exists but does not respond to listen.").data

/-- src/src/util.ts loadServer over the abstract module system.  The
resolved serverPath (produced by guessServerPath) is passed in.  The cache
is purged of every key containing serverPath, then the module is required;
an import failure is a LoadError, a loaded value without a listen function
(after default-unwrapping) is a ShapeError, otherwise the handler is
returned. -/
def loadServer (disk : List Char → Option ModuleValue) (cache : RequireCache)
    (serverPath : List Char) : Except LoadFailure ServerValue × RequireCache :=
  let cache1 := clearRequireCache serverPath cache
  match requireModule disk cache1 serverPath with
  | (none, cache2) => (Except.error LoadFailure.loadError, cache2)
  | (some server, cache2) =>
    let server := unwrapDefault server
    if server.listens then (Except.ok server, cache2)
    else (Except.error (LoadFailure.shapeError (listenErrMsg serverPath)), cache2)

/-- The cache-independent meaning of loading a module value m found at
serverPath: what loadServer produces whenever the require reads m from
disk. -/
def loadOutcome (serverPath : List Char) (m : ModuleValue) : Except LoadFailure ServerValue :=
  if (unwrapDefault m).listens then Except.ok (unwrapDefault m)
  else Except.error (LoadFailure.shapeError (listenErrMsg serverPath))

/-! ## Hot-Reload Supervisor (src/src/index.ts, run, FS.watch callback) -/

/-- State owned by the run() watch loop: whether the single HTTP listener is
bound, which server version it serves, the lastProblemAt timestamp, and
whether the process is alive. -/
structure WatchState : Type where
  listenerUp : Bool
  serverVersion : Nat
  lastProblemAt : Option Nat
  processAlive : Bool
deriving DecidableEq

/-- Observable actions the watch callback performs. -/
inductive WatchAction : Type where
  | destroyListener : WatchAction
  | loadAttempt : WatchAction
  | listenBind : WatchAction
  | reportError : WatchAction
  | resolvedNotice : WatchAction
  | runningNotice : WatchAction
deriving DecidableEq

/-- The path fragment of the public-asset filter. -/
def publicFragment : List Char := ("public/").data

/-- The filter filename.match of the anchored public regex: the event path
starts with public/. -/
def startsWithPublic (filename : List Char) : Bool := publicFragment.isPrefixOf filename

/-- The FS.watch callback of run() (src/src/index.ts lines 408-433): ignore
paths under public/; otherwise destroy the current listener, load a fresh
server, and on success bind a new listener (emitting the problem-resolved
and running-again notices when a problem was recorded and logging is on,
then clearing lastProblemAt); on failure record lastProblemAt and report
the error, leaving no listener bound.  The fresh load result and the
current time are inputs. -/
def watchEvent (isLoggingEnabled : Bool) (st : WatchState) (filename : List Char)
    (loadResult : Except Unit Nat) (now : Nat) : WatchState × List WatchAction :=
  if startsWithPublic filename then (st, [])
  else
    let st1 : WatchState := { st with listenerUp := false }
    match loadResult with
    | Except.ok v =>
      let notices := if st1.lastProblemAt.isSome && isLoggingEnabled then
          [WatchAction.resolvedNotice, WatchAction.runningNotice] else []
      ({ st1 with listenerUp := true, serverVersion := v, lastProblemAt := none },
        [WatchAction.destroyListener, WatchAction.loadAttempt, WatchAction.listenBind] ++ notices)
    | Except.error _ =>
      ({ st1 with lastProblemAt := some now },
        [WatchAction.destroyListener, WatchAction.loadAttempt, WatchAction.reportError])

/-! ## Client bundler watch loop (src/src/index.ts, compileClient handlers) -/

/-- Events of the parcel bundler loop: a completed build (with whether an
entry asset is present) or a build error at a time. -/
inductive BundleEvent : Type where
  | bundled : Bool → BundleEvent
  | buildError : Nat → BundleEvent
deriving DecidableEq

/-- The bundled/buildError handlers' effect on lastProblemAt (src/src/index.ts
lines 325-329 and 362-363); the Bool output is whether the problem-resolved
notice is printed by this event. -/
def bundlerStep : Option Nat → BundleEvent → Option Nat × Bool
  | p, BundleEvent.bundled _ => (none, p.isSome)
  | _, BundleEvent.buildError t => (some t, false)

/-! ## Build Pipeline Coordinator (compile) -/

/-- Observable milestones of one compile() run. -/
inductive CompileEvent : Type where
  | clientBundleStart : CompileEvent
  | clientBundleEnd : CompileEvent
  | serverCompileStart : CompileEvent
  | serverCompileEnd : CompileEvent
  | compileResolved : CompileEvent
deriving DecidableEq

namespace Parcel

/-- Awaited events of compileServer (execa tsc, then resolution). -/
def compileServerEvents : List CompileEvent :=
  [CompileEvent.serverCompileStart, CompileEvent.serverCompileEnd]

/-- The synchronous prefix of compileClient: the temp HTML entry is written
and the bundler is constructed and started before compileClient returns its
promise, so client bundling observably starts here. -/
def compileClientStartEvents : List CompileEvent := [CompileEvent.clientBundleStart]

/-- src/src/index.ts lines 454-459: compile() invokes compileClient(options)
without awaiting it, then awaits compileServer(options) and resolves. -/
def compileEvents : List CompileEvent :=
  compileClientStartEvents ++ compileServerEvents ++ [CompileEvent.compileResolved]

end Parcel

namespace Webpack

/-- The webpack-era compile() (src/src/index.ts lines 192-196): await
compileServer(), then await compileClient(), then resolve. -/
def compileEvents : List CompileEvent :=
  [CompileEvent.serverCompileStart, CompileEvent.serverCompileEnd,
   CompileEvent.clientBundleStart, CompileEvent.clientBundleEnd,
   CompileEvent.compileResolved]

/-- Outcome of the webpack compileClient promise for the process. -/
inductive ClientOutcome : Type where
  | resolved : ClientOutcome
  | rejected : String → ClientOutcome
  | exited : ClientOutcome
deriving DecidableEq

/-- The newline used by errors.join. -/
def newlineStr : String := "\n"

/-- src/src/index.ts lines 86-105 (webpack compileClient callback): a
webpack invocation error rejects; with no stats errors the promise
resolves; with stats errors the process exits when logging is enabled and
the promise is rejected with the joined errors when logging is disabled. -/
def compileClientOutcome (isLoggingEnabled : Bool) (webpackErr : Option String)
    (statsErrors : List String) : ClientOutcome :=
  match webpackErr with
  | some e => ClientOutcome.rejected e
  | none =>
    if statsErrors.length = 0 then ClientOutcome.resolved
    else if isLoggingEnabled then ClientOutcome.exited
    else ClientOutcome.rejected (String.intercalate newlineStr statsErrors)

end Webpack

/-! ## clean (src/src/index.ts lines 247-263) -/

/-- Filesystem actions performed by clean. -/
inductive FsAction : Type where
  | remove : List Char → FsAction
deriving DecidableEq

/-- The guard substring of clean. -/
def srcFragment : List Char := ("/src").data

/-- Path.join for already-normalized segments. -/
def pathJoin (a b : List Char) : List Char := a ++ '/' :: b

/-- src/src/util.ts guessCompiledPath: Path.join(rootPath, outDir) when
tsconfig has compilerOptions.outDir, else the guessed server path. -/
def guessCompiledPath (rootPath : List Char) (tsconfigOutDir : Option (List Char))
    (serverPathFallback : List Char) : List Char :=
  match tsconfigOutDir with
  | some outDir => pathJoin rootPath outDir
  | none => serverPathFallback

/-- src/src/index.ts clean (parcel version, lines 253-262): FS.remove the
guessed compiled path only when it does not include the substring /src. -/
def clean (compiledPath : List Char) : List FsAction :=
  if !(includesStr compiledPath srcFragment) then [FsAction.remove compiledPath] else []

/-! ## Template Injector (src/src/index.ts, bundled handler, lines 342-353) -/

/-- The literal opening of a placeholder in the regex. -/
def openTag : List Char := ("<%= ").data

/-- The literal closing of a placeholder in the regex. -/
def closeTag : List Char := (" %>").data

/-- Index of the last occurrence of closeTag in a list (greedy .* causes the
regex to bind the last close delimiter on the line). -/
def lastClose : List Char → Option Nat
  | [] => none
  | c :: cs =>
    match lastClose cs with
    | some j => some (j + 1)
    | none => if closeTag.isPrefixOf (c :: cs) then some 0 else none

/-- One attempt of the JS regex at the start of s: it matches when s starts
with the open delimiter and a close delimiter occurs later on the same line;
the greedy capture runs to the last close delimiter of the line.  Returns
the full match, the captured word, and the capture length. -/
def matchAt (s : List Char) : Option (List Char × List Char × Nat) :=
  if openTag.isPrefixOf s then
    let lineRest := (s.drop 4).takeWhile (fun c => c ≠ '\n')
    match lastClose lineRest with
    | some j => some (openTag ++ lineRest.take j ++ closeTag, lineRest.take j, j)
    | none => none
  else none

/-- Fuel-bounded scan of the global regex; the string shrinks at every step,
so fuel one-per-character is always enough. -/
def scanMatchesAux : Nat → List Char → List (List Char × List Char)
  | 0, _ => []
  | _, [] => []
  | fuel + 1, c :: cs =>
    match matchAt (c :: cs) with
    | some (full, word, j) => (full, word) :: scanMatchesAux fuel (cs.drop (j + 6))
    | none => scanMatchesAux fuel cs

/-- htmlContent.match of the global placeholder regex: scan left to right,
resuming after each match, collecting (full match, captured word) pairs. -/
def scanMatches (s : List Char) : List (List Char × List Char) :=
  scanMatchesAux s.length s

/-- JS String.prototype.replace with a plain string pattern: replace the
first occurrence only. -/
def replaceFirst : List Char → List Char → List Char → List Char
  | [], _, _ => []
  | c :: cs, pat, r =>
    if pat.isPrefixOf (c :: cs) then r ++ (c :: cs).drop pat.length
    else c :: replaceFirst cs pat r

/-- Guard text before the interpolated word. -/
def guardPre : List Char := ("<% if (typeof ").data

/-- Guard text between the interpolated word and the original match. -/
def guardMid : List Char := (" !== \"undefined\") \x7b %>").data

/-- Guard text after the original match. -/
def guardEnd : List Char := ("<% \x7d %>").data

/-- The conditional definition guard the injector wraps around a match. -/
def guardFor (word full : List Char) : List Char :=
  guardPre ++ word ++ guardMid ++ full ++ guardEnd

/-- src/src/index.ts lines 346-351: every global match of the placeholder
regex, computed on the original text, is replaced (first occurrence, in
match order, on the evolving text) by its definition guard. -/
def injectGuards (htmlContent : List Char) : List Char :=
  (scanMatches htmlContent).foldl
    (fun acc fw => replaceFirst acc fw.1 (guardFor fw.2 fw.1)) htmlContent

/-- The closing body marker. -/
def bodyCloseTag : List Char := ("</body>").data

/-- src/src/index.ts line 344: the generated bundle markup is spliced in
front of the first closing body marker. -/
def injectBundleHtml (htmlContent bundleHtml : List Char) : List Char :=
  replaceFirst htmlContent bodyCloseTag (bundleHtml ++ bodyCloseTag)

/-- Number of occurrences of pat starting at each position of s. -/
def countOcc (pat : List Char) : List Char → Nat
  | [] => 0
  | c :: cs => (if pat.isPrefixOf (c :: cs) then 1 else 0) + countOcc pat cs

/-! ## Loader lemmas -/

theorem cacheLookup_clear_self (p : List Char) (cache : RequireCache) :
    cacheLookup p (clearRequireCache p cache) = none := by
  induction cache with
  | nil => rfl
  | cons kv rest ih =>
    unfold clearRequireCache at ih ⊢
    rw [List.filter_cons]
    by_cases h : includesStr kv.1 p
    · simp only [h, Bool.not_true, if_false]
      exact ih
    · have hk : kv.1 ≠ p := by
        intro he
        apply h
        rw [he]
        simp [includesStr, List.infix_refl]
      simp only [h, Bool.not_false, if_true]
      simpa [cacheLookup, hk] using ih

theorem loadServer_fst (disk : List Char → Option ModuleValue) (cache : RequireCache)
    (p : List Char) :
    (loadServer disk cache p).1 =
      (match disk p with
       | none => Except.error LoadFailure.loadError
       | some m => loadOutcome p m) := by
  simp only [loadServer, requireModule, cacheLookup_clear_self]
  cases hd : disk p with
  | none => rfl
  | some m =>
    unfold loadOutcome
    cases hl : (unwrapDefault m).listens <;> simp [hl]

/-! ## Claim theorems -/

/-- C2: loadServer returns a LoadError when the compiled server module at the
resolved path cannot be imported, a ShapeError whose message contains
"listen" when the module imports but the default-unwrapped value has no
listen function, and otherwise the loaded handler. -/
theorem loadServer_error_classification (disk : List Char → Option ModuleValue)
    (cache : RequireCache) (p : List Char) :
    (disk p = none → (loadServer disk cache p).1 = Except.error LoadFailure.loadError) ∧
    (∀ m, disk p = some m → (unwrapDefault m).listens = false →
      (loadServer disk cache p).1 = Except.error (LoadFailure.shapeError (listenErrMsg p)) ∧
        ("listen").data <:+: listenErrMsg p) ∧
    (∀ m, disk p = some m → (unwrapDefault m).listens = true →
      (loadServer disk cache p).1 = Except.ok (unwrapDefault m)) := by
  refine ⟨fun h => ?_, fun m hm hl => ⟨?_, ?_⟩, fun m hm hl => ?_⟩
  · rw [loadServer_fst, h]
  · rw [loadServer_fst, hm]
    simp [loadOutcome, hl]
  · unfold listenErrMsg
    refine List.IsInfix.trans ?_ ((List.suffix_append p _).isInfix)
    decide
  · rw [loadServer_fst, hm]
    simp [loadOutcome, hl]

/-- Witness for C2 at concrete inputs: a missing module, a module whose
value does not listen, and a module whose default export listens. -/
theorem loadServer_error_classification_witness :
    (loadServer (fun _ => none) [] (("/app/dist").data)).1 =
        Except.error LoadFailure.loadError ∧
    ((loadServer (fun _ => some (ModuleValue.mk none (ServerValue.mk 0 false))) []
          (("/app/dist").data)).1 =
        Except.error (LoadFailure.shapeError (listenErrMsg (("/app/dist").data))) ∧
      ("listen").data <:+: listenErrMsg (("/app/dist").data)) ∧
    (loadServer (fun _ => some (ModuleValue.mk (some (ServerValue.mk 1 true)) (ServerValue.mk 0 false)))
        [] (("/app/dist").data)).1 = Except.ok (ServerValue.mk 1 true) :=
  ⟨(loadServer_error_classification _ _ _).1 rfl,
   (loadServer_error_classification _ _ _).2.1
     (ModuleValue.mk none (ServerValue.mk 0 false)) rfl rfl,
   (loadServer_error_classification _ _ _).2.2
     (ModuleValue.mk (some (ServerValue.mk 1 true)) (ServerValue.mk 0 false)) rfl rfl⟩

/-- C4: the cache purge makes every loadServer call observe the disk: on any
second call after a disk change the result is the fresh semantics of the
second version regardless of what the first call cached, and the purge
removes every cache key containing the server path. -/
theorem loadServer_cache_purge_fresh (disk1 disk2 : List Char → Option ModuleValue)
    (cache0 : RequireCache) (p : List Char) (m2 : ModuleValue)
    (h2 : disk2 p = some m2) :
    (loadServer disk2 (loadServer disk1 cache0 p).2 p).1 = loadOutcome p m2 ∧
    (∀ k v, (k, v) ∈ clearRequireCache p cache0 → ¬ (p <:+: k)) := by
  constructor
  · rw [loadServer_fst, h2]
  · intro k v hm hinf
    unfold clearRequireCache at hm
    have hf := List.of_mem_filter hm
    simp only [includesStr, Bool.not_eq_true', decide_eq_false_iff_not] at hf
    exact hf hinf

/-- Witness for C4: the module on disk is toggled between the two calls and
the second call reflects the second version. -/
theorem loadServer_cache_purge_fresh_witness :
    (loadServer (fun _ => some (ModuleValue.mk none (ServerValue.mk 2 true)))
        (loadServer (fun _ => some (ModuleValue.mk none (ServerValue.mk 1 true))) []
          (("/app/dist").data)).2
        (("/app/dist").data)).1 =
      loadOutcome (("/app/dist").data) (ModuleValue.mk none (ServerValue.mk 2 true)) ∧
    (∀ k v, (k, v) ∈ clearRequireCache (("/app/dist").data) ([] : RequireCache) →
      ¬ ((("/app/dist").data) <:+: k)) :=
  loadServer_cache_purge_fresh _ _ _ _ _ rfl

/-- C5: when the fresh load fails in the reload watch loop, no new listener
is bound (the listener destroyed at the start of the cycle stays down), the
problem timestamp is recorded, and the process stays alive. -/
theorem watch_reload_failure_no_listener (isLog : Bool) (st : WatchState) (f : List Char)
    (now : Nat) (hf : startsWithPublic f = false) :
    (watchEvent isLog st f (Except.error ()) now).1.listenerUp = false ∧
    (watchEvent isLog st f (Except.error ()) now).1.lastProblemAt = some now ∧
    (watchEvent isLog st f (Except.error ()) now).1.processAlive = st.processAlive ∧
    WatchAction.listenBind ∉ (watchEvent isLog st f (Except.error ()) now).2 := by
  simp [watchEvent, hf]

/-- Witness for C5 at a concrete non-public change event. -/
theorem watch_reload_failure_no_listener_witness :
    (watchEvent true (WatchState.mk true 0 none true) (("routes.js").data)
        (Except.error ()) 7).1.listenerUp = false ∧
    (watchEvent true (WatchState.mk true 0 none true) (("routes.js").data)
        (Except.error ()) 7).1.lastProblemAt = some 7 ∧
    (watchEvent true (WatchState.mk true 0 none true) (("routes.js").data)
        (Except.error ()) 7).1.processAlive = (WatchState.mk true 0 none true).processAlive ∧
    WatchAction.listenBind ∉ (watchEvent true (WatchState.mk true 0 none true)
        (("routes.js").data) (Except.error ()) 7).2 :=
  watch_reload_failure_no_listener true (WatchState.mk true 0 none true)
    (("routes.js").data) 7 (by decide)

/-- C6 counterexample: a change event under the server source tree whose
fresh load fails performs no listener swap at all, so it is not the case
that every non-public change event triggers exactly one listener swap. -/
theorem watch_failed_reload_no_swap_counterexample :
    startsWithPublic (("src/server/routes.js").data) = false ∧
    (watchEvent true (WatchState.mk true 0 none true) (("src/server/routes.js").data)
        (Except.error ()) 3).2.count WatchAction.listenBind = 0 := by
  decide

/-- C6 (amended): a change event under public/ never triggers a reload (the
state and action list are untouched); any other change event triggers
exactly one reload cycle, with exactly one listener teardown and one load
attempt, and the listener swap completes exactly once when the fresh server
loads successfully and zero times when loading fails. -/
theorem watch_public_filter_and_reload_actions (isLog : Bool) (st : WatchState)
    (f : List Char) (r : Except Unit Nat) (now : Nat) :
    (startsWithPublic f = true → watchEvent isLog st f r now = (st, [])) ∧
    (startsWithPublic f = false →
      (watchEvent isLog st f r now).2.count WatchAction.destroyListener = 1 ∧
      (watchEvent isLog st f r now).2.count WatchAction.loadAttempt = 1 ∧
      (watchEvent isLog st f r now).2.count WatchAction.listenBind =
        (match r with | Except.ok _ => 1 | Except.error _ => 0)) := by
  constructor
  · intro h
    simp [watchEvent, h]
  · intro h
    cases r with
    | ok v =>
      refine ⟨?_, ?_, ?_⟩ <;>
        · simp only [watchEvent, h, if_false, Bool.false_eq_true]
          split <;> decide
    | error e =>
      refine ⟨?_, ?_, ?_⟩ <;> simp [watchEvent, h]

/-- Witness for C6: the public/bundle.js event is ignored and the
src/server/routes.js event with a successful load swaps the listener exactly
once. -/
theorem watch_public_filter_and_reload_actions_witness :
    watchEvent true (WatchState.mk true 0 none true) (("public/bundle.js").data)
        (Except.ok 1) 3 = (WatchState.mk true 0 none true, []) ∧
    ((watchEvent true (WatchState.mk true 0 none true) (("src/server/routes.js").data)
        (Except.ok 1) 3).2.count WatchAction.destroyListener = 1 ∧
      (watchEvent true (WatchState.mk true 0 none true) (("src/server/routes.js").data)
        (Except.ok 1) 3).2.count WatchAction.loadAttempt = 1 ∧
      (watchEvent true (WatchState.mk true 0 none true) (("src/server/routes.js").data)
        (Except.ok 1) 3).2.count WatchAction.listenBind = 1) :=
  ⟨(watch_public_filter_and_reload_actions true _ _ (Except.ok 1) 3).1 (by decide),
   (watch_public_filter_and_reload_actions true _ _ (Except.ok 1) 3).2 (by decide)⟩

/-- C7: in the run watch loop with logging enabled, a failing reload
followed by a successful reload emits the problem-resolved notice exactly
once; a failing reload emits none; two consecutive failures emit none; a
success following a success emits none; and the bundler loop obeys the same
discipline (its notice needs no logging flag). -/
theorem problem_resolved_notice_first_success (st : WatchState) (f1 f2 : List Char)
    (t1 t2 v : Nat) (b1 b2 : Bool) (p : Option Nat)
    (h1 : startsWithPublic f1 = false) (h2 : startsWithPublic f2 = false) :
    (WatchAction.resolvedNotice ∉ (watchEvent true st f1 (Except.error ()) t1).2 ∧
      (watchEvent true ((watchEvent true st f1 (Except.error ()) t1).1) f2
          (Except.ok v) t2).2.count WatchAction.resolvedNotice = 1) ∧
    WatchAction.resolvedNotice ∉
      (watchEvent true ((watchEvent true st f1 (Except.error ()) t1).1) f2
        (Except.error ()) t2).2 ∧
    WatchAction.resolvedNotice ∉
      (watchEvent true ((watchEvent true st f1 (Except.ok v) t1).1) f2
        (Except.ok v) t2).2 ∧
    ((bundlerStep (bundlerStep p (BundleEvent.buildError t1)).1 (BundleEvent.bundled b1)).2 = true ∧
      (bundlerStep p (BundleEvent.buildError t1)).2 = false ∧
      (bundlerStep (bundlerStep p (BundleEvent.bundled b1)).1 (BundleEvent.bundled b2)).2 = false) := by
  refine ⟨⟨?_, ?_⟩, ?_, ?_, by simp [bundlerStep]⟩ <;> simp [watchEvent, h1, h2]

/-- Witness for C7 at concrete change events. -/
theorem problem_resolved_notice_first_success_witness :
    (WatchAction.resolvedNotice ∉ (watchEvent true (WatchState.mk true 0 none true)
        (("a.js").data) (Except.error ()) 1).2 ∧
      (watchEvent true ((watchEvent true (WatchState.mk true 0 none true) (("a.js").data)
          (Except.error ()) 1).1) (("b.js").data)
          (Except.ok 5) 2).2.count WatchAction.resolvedNotice = 1) ∧
    WatchAction.resolvedNotice ∉
      (watchEvent true ((watchEvent true (WatchState.mk true 0 none true) (("a.js").data)
          (Except.error ()) 1).1) (("b.js").data) (Except.error ()) 2).2 ∧
    WatchAction.resolvedNotice ∉
      (watchEvent true ((watchEvent true (WatchState.mk true 0 none true) (("a.js").data)
          (Except.ok 5) 1).1) (("b.js").data) (Except.ok 5) 2).2 ∧
    ((bundlerStep (bundlerStep (some 9) (BundleEvent.buildError 1)).1 (BundleEvent.bundled true)).2 = true ∧
      (bundlerStep (some 9) (BundleEvent.buildError 1)).2 = false ∧
      (bundlerStep (bundlerStep (some 9) (BundleEvent.bundled true)).1 (BundleEvent.bundled true)).2 = false) :=
  problem_resolved_notice_first_success (WatchState.mk true 0 none true)
    (("a.js").data) (("b.js").data) 1 2 5 true true (some 9) (by decide) (by decide)

/-- C1 counterexample: in the current compile() the client bundling step
observably starts (temp entry written, bundler constructed and started)
strictly before the server compile step completes, refuting the claimed
ordering. -/
theorem compile_client_starts_before_server_counterexample :
    CompileEvent.clientBundleStart ∈ Parcel.compileEvents ∧
    CompileEvent.serverCompileEnd ∈ Parcel.compileEvents ∧
    Parcel.compileEvents.indexOf CompileEvent.clientBundleStart <
      Parcel.compileEvents.indexOf CompileEvent.serverCompileEnd := by
  decide

/-- C1 (amended): compile() resolves only after the server compile step has
completed, but the client bundling step is started before the server
compile step even begins; the webpack-era compile() did run the client step
strictly after the server compile completed. -/
theorem compile_resolves_after_server_compile :
    Parcel.compileEvents.indexOf CompileEvent.serverCompileEnd <
      Parcel.compileEvents.indexOf CompileEvent.compileResolved ∧
    Parcel.compileEvents.indexOf CompileEvent.clientBundleStart <
      Parcel.compileEvents.indexOf CompileEvent.serverCompileStart ∧
    Webpack.compileEvents.indexOf CompileEvent.serverCompileEnd <
      Webpack.compileEvents.indexOf CompileEvent.clientBundleStart := by
  decide

/-- C9 counterexample: with a client build error and no webpack invocation
error, the step's outcome depends on isLoggingEnabled: enabled tears the
process down, disabled rejects the promise. -/
theorem client_outcome_depends_on_logging_counterexample :
    Webpack.compileClientOutcome true none [("boom" : String)] = Webpack.ClientOutcome.exited ∧
    Webpack.compileClientOutcome false none [("boom" : String)] =
      Webpack.ClientOutcome.rejected ("boom") ∧
    Webpack.compileClientOutcome true none [("boom" : String)] ≠
      Webpack.compileClientOutcome false none [("boom" : String)] := by
  decide

/-- C9 (amended): the outcome of the client compile step is independent of
the logging flag exactly when the build does not report stats errors (or
webpack itself errs); in the stats-error case logging enabled exits the
process while logging disabled propagates a rejection. -/
theorem client_outcome_logging_independence_iff (err : Option String) (errors : List String) :
    (Webpack.compileClientOutcome true err errors = Webpack.compileClientOutcome false err errors) ↔
      ¬ (err = none ∧ errors ≠ []) := by
  cases err with
  | some e => simp [Webpack.compileClientOutcome]
  | none =>
    cases errors with
    | nil => simp [Webpack.compileClientOutcome]
    | cons e es => simp [Webpack.compileClientOutcome]

/-- C10: clean() deletes the guessed compiled output directory exactly when
its resolved path does not contain the substring /src, and clean never
removes any path containing /src. -/
theorem clean_skips_src_paths (rootPath serverPathFallback : List Char)
    (outDir : Option (List Char)) :
    (FsAction.remove (guessCompiledPath rootPath outDir serverPathFallback) ∈
        clean (guessCompiledPath rootPath outDir serverPathFallback) ↔
      ¬ (srcFragment <:+: guessCompiledPath rootPath outDir serverPathFallback)) ∧
    (∀ p q, FsAction.remove q ∈ clean p → ¬ (srcFragment <:+: q)) := by
  constructor
  · by_cases h : srcFragment <:+: guessCompiledPath rootPath outDir serverPathFallback <;>
      simp [clean, includesStr, h]
  · intro p q hq
    unfold clean at hq
    by_cases h : srcFragment <:+: p
    · simp [includesStr, h] at hq
    · simp [includesStr, h] at hq
      subst hq
      exact h

/-! ## Template machinery lemmas -/

theorem isPrefixOf_eq_true (l1 l2 : List Char) : l1.isPrefixOf l2 = true ↔ l1 <+: l2 :=
  List.isPrefixOf_iff_prefix

theorem mem_of_getElemOpt (l : List Char) (i : Nat) (c : Char) (h : l[i]? = some c) : c ∈ l := by
  obtain ⟨hn, rfl⟩ := List.getElem?_eq_some.mp h
  exact List.getElem_mem hn

theorem char_of_prefix_drop (pat s : List Char) (k i : Nat) (c : Char)
    (hc : pat[i]? = some c) (h : pat <+: s.drop k) : s[k + i]? = some c := by
  obtain ⟨t, ht⟩ := h
  have hi : i < pat.length := (List.getElem?_eq_some.mp hc).1
  have : (s.drop k)[i]? = some c := by
    rw [← ht, List.getElem?_append_left hi]
    exact hc
  rw [List.getElem?_drop] at this
  exact this

theorem noOcc_of_noPct (u v pat : List Char) (hpat : pat[1]? = some ('%'))
    (hu : ('%') ∉ u) (hv : v[0]? ≠ some ('%')) :
    ∀ k < u.length, ¬ pat <+: (u ++ v).drop k := by
  intro k hk h
  have h2 := char_of_prefix_drop pat (u ++ v) k 1 ('%') hpat h
  by_cases hlt : k + 1 < u.length
  · rw [List.getElem?_append_left hlt] at h2
    exact hu (mem_of_getElemOpt u (k + 1) ('%') h2)
  · have he : k + 1 = u.length := by omega
    rw [List.getElem?_append_right (by omega)] at h2
    rw [he, Nat.sub_self] at h2
    exact hv h2

theorem noOcc_of_no_lt (u v pat : List Char) (hpat : pat[0]? = some ('<'))
    (hu : ('<') ∉ u) : ∀ k < u.length, ¬ pat <+: (u ++ v).drop k := by
  intro k hk h
  have h0 := char_of_prefix_drop pat (u ++ v) k 0 ('<') hpat h
  rw [Nat.add_zero, List.getElem?_append_left hk] at h0
  exact hu (mem_of_getElemOpt u k ('<') h0)

theorem noOcc_concrete (u v pat : List Char) (h0 : pat[0]? = some ('<'))
    (h2 : pat[2]? = some ('='))
    (hu0 : ∀ i < u.length, u[i]? = some ('<') → i = 0)
    (hlen : 3 ≤ u.length) (hu2 : u[2]? ≠ some ('=')) :
    ∀ k < u.length, ¬ pat <+: (u ++ v).drop k := by
  intro k hk h
  have c0 := char_of_prefix_drop pat (u ++ v) k 0 ('<') h0 h
  rw [Nat.add_zero, List.getElem?_append_left hk] at c0
  have hk0 : k = 0 := hu0 k hk c0
  subst hk0
  have c2 := char_of_prefix_drop pat (u ++ v) 0 2 ('=') h2 h
  rw [Nat.zero_add, List.getElem?_append_left (by omega)] at c2
  exact hu2 c2

theorem noOcc_append_compose (u m v pat : List Char)
    (h1 : ∀ k < u.length, ¬ pat <+: (u ++ (m ++ v)).drop k)
    (h2 : ∀ k < m.length, ¬ pat <+: (m ++ v).drop k) :
    ∀ k < (u ++ m).length, ¬ pat <+: ((u ++ m) ++ v).drop k := by
  intro k hk
  rw [List.append_assoc]
  by_cases hku : k < u.length
  · exact h1 k hku
  · have he : k = u.length + (k - u.length) := by omega
    rw [he, List.drop_append]
    apply h2
    rw [List.length_append] at hk
    omega

theorem replaceFirst_append_of_noOcc : ∀ (u v pat r : List Char),
    (∀ k < u.length, ¬ pat <+: (u ++ v).drop k) →
    replaceFirst (u ++ v) pat r = u ++ replaceFirst v pat r := by
  intro u
  induction u with
  | nil => intro v pat r h; rfl
  | cons c us ih =>
    intro v pat r h
    have h0 : ¬ pat <+: (c :: (us ++ v)) := by simpa using h 0 (by simp)
    have hp : pat.isPrefixOf (c :: (us ++ v)) = false := by
      by_contra hb
      rw [Bool.not_eq_false] at hb
      exact h0 (isPrefixOf_eq_true pat _ |>.mp hb)
    show replaceFirst (c :: (us ++ v)) pat r = c :: (us ++ replaceFirst v pat r)
    rw [replaceFirst, hp]
    simp only [Bool.false_eq_true, if_false, List.cons.injEq, true_and]
    exact ih v pat r (fun k hk => by simpa using h (k + 1) (by simp; omega))

theorem replaceFirst_at_head (pat w r : List Char) (hne : pat ≠ []) :
    replaceFirst (pat ++ w) pat r = r ++ w := by
  cases pat with
  | nil => exact absurd rfl hne
  | cons c cs =>
    have hp : (c :: cs).isPrefixOf (c :: (cs ++ w)) = true := by
      rw [isPrefixOf_eq_true]
      exact List.prefix_append (c :: cs) w
    show replaceFirst (c :: (cs ++ w)) (c :: cs) r = r ++ w
    rw [replaceFirst, hp]
    simp only [if_true, List.append_cancel_left_eq]
    show ((c :: cs) ++ w).drop (c :: cs).length = w
    exact List.drop_left (c :: cs) w

theorem closeTag_eq : closeTag = (' ') :: ('%') :: ('>') :: [] := rfl

theorem openTag_eq : openTag = ('<') :: ('%') :: ('=') :: (' ') :: [] := rfl

theorem lastClose_occ (l : List Char) (j : Nat) (h : lastClose l = some j) :
    closeTag <+: l.drop j := by
  induction l generalizing j with
  | nil => simp [lastClose] at h
  | cons c cs ih =>
    rw [lastClose] at h
    cases hm : lastClose cs with
    | some j' =>
      rw [hm] at h
      injection h with h
      subst h
      simpa using ih j' hm
    | none =>
      rw [hm] at h
      by_cases hp : closeTag.isPrefixOf (c :: cs)
      · simp only [hp, if_true] at h
        injection h with h
        subst h
        simpa using (isPrefixOf_eq_true _ _).mp hp
      · simp [hp] at h

theorem lastClose_isSome (l : List Char) (k : Nat) (h : closeTag <+: l.drop k) :
    (lastClose l).isSome := by
  induction l generalizing k with
  | nil =>
    rw [List.drop_nil] at h
    have := h.length_le
    simp [closeTag_eq] at this
  | cons c cs ih =>
    rw [lastClose]
    cases hm : lastClose cs with
    | some j' => simp
    | none =>
      cases k with
      | zero =>
        rw [List.drop_zero] at h
        have hp : closeTag.isPrefixOf (c :: cs) = true := (isPrefixOf_eq_true _ _).mpr h
        simp [hp]
      | succ k' =>
        have hk := ih k' (by simpa using h)
        rw [hm] at hk
        simp at hk

theorem lastClose_ge (l : List Char) (j k : Nat) (hl : lastClose l = some j)
    (h : closeTag <+: l.drop k) : k ≤ j := by
  induction l generalizing j k with
  | nil => simp [lastClose] at hl
  | cons c cs ih =>
    rw [lastClose] at hl
    cases hm : lastClose cs with
    | some j' =>
      rw [hm] at hl
      injection hl with hl
      subst hl
      cases k with
      | zero => omega
      | succ k' =>
        have := ih j' k' hm (by simpa using h)
        omega
    | none =>
      rw [hm] at hl
      by_cases hp : closeTag.isPrefixOf (c :: cs)
      · simp only [hp, if_true, Option.some.injEq] at hl
        subst hl
        cases k with
        | zero => omega
        | succ k' =>
          have hk := lastClose_isSome cs k' (by simpa using h)
          rw [hm] at hk
          simp at hk
      · simp [hp] at hl

theorem lastClose_clean (x y : List Char) (hx : ('%') ∉ x) (hy : ('%') ∉ y) :
    lastClose (x ++ (closeTag ++ y)) = some x.length := by
  have hocc : closeTag <+: (x ++ (closeTag ++ y)).drop x.length := by
    rw [List.drop_left]
    exact List.prefix_append closeTag y
  obtain ⟨j, hj⟩ := Option.isSome_iff_exists.mp (lastClose_isSome _ _ hocc)
  have hja := lastClose_occ _ _ hj
  have hpct := char_of_prefix_drop closeTag _ j 1 ('%') (by rw [closeTag_eq]; rfl) hja
  have hjx : j = x.length := by
    by_cases h1 : j + 1 < x.length
    · rw [List.getElem?_append_left h1] at hpct
      exact absurd (mem_of_getElemOpt _ _ _ hpct) hx
    · by_cases h2 : j + 1 < x.length + 3
      · have hge : x.length ≤ j + 1 := by omega
        rw [List.getElem?_append_right hge] at hpct
        have hi : j + 1 - x.length < closeTag.length := by rw [closeTag_eq]; simp; omega
        rw [List.getElem?_append_left hi] at hpct
        have hone : ∀ i < 3, closeTag[i]? = some ('%') → i = 1 := by decide
        have := hone (j + 1 - x.length) (by omega) hpct
        omega
      · rw [List.getElem?_append_right (by omega)] at hpct
        rw [List.getElem?_append_right (by rw [closeTag_eq]; simp; omega)] at hpct
        exact absurd (mem_of_getElemOpt _ _ _ hpct) hy
  rw [hjx] at hj
  exact hj

theorem takeWhile_append_of_all (p : Char → Bool) (u v : List Char)
    (h : ∀ c ∈ u, p c = true) : (u ++ v).takeWhile p = u ++ v.takeWhile p := by
  induction u with
  | nil => rfl
  | cons c cs ih =>
    have hc : p c = true := h c (by simp)
    show ((c :: cs) ++ v).takeWhile p = _
    rw [List.cons_append, List.takeWhile_cons, hc]
    simp only [if_true]
    rw [ih (fun d hd => h d (by simp [hd]))]
    rfl

theorem matchAt_placeholder (w r : List Char) (hw : ('%') ∉ w) (hwn : ('\n') ∉ w)
    (hrt : ('%') ∉ (r.takeWhile (fun c => c ≠ '\n'))) :
    matchAt (openTag ++ (w ++ (closeTag ++ r))) =
      some (openTag ++ w ++ closeTag, w, w.length) := by
  have hp : openTag.isPrefixOf (openTag ++ (w ++ (closeTag ++ r))) = true := by
    rw [isPrefixOf_eq_true]
    exact List.prefix_append _ _
  rw [matchAt, hp]
  simp only [if_true]
  have hdrop : (openTag ++ (w ++ (closeTag ++ r))).drop 4 = w ++ (closeTag ++ r) := by
    rw [show (4 : Nat) = openTag.length from rfl]
    exact List.drop_left _ _
  rw [hdrop]
  rw [takeWhile_append_of_all _ w _ (fun c hc => by
    simp only [ne_eq, decide_not, Bool.not_eq_eq_eq_not, Bool.not_true, decide_eq_false_iff_not]
    intro he
    exact hwn (he ▸ hc))]
  rw [takeWhile_append_of_all _ closeTag _ (by decide)]
  rw [lastClose_clean w _ hw (by
    intro hc
    exact hrt (by simpa using hc))]
  simp only [List.take_left]

theorem scanMatchesAux_congr : ∀ (f1 f2 : Nat) (s : List Char),
    s.length ≤ f1 → s.length ≤ f2 → scanMatchesAux f1 s = scanMatchesAux f2 s := by
  intro f1
  induction f1 with
  | zero =>
    intro f2 s h1 h2
    have hs : s = [] := by
      cases s with
      | nil => rfl
      | cons c cs => simp at h1
    subst hs
    cases f2 <;> rfl
  | succ f ih =>
    intro f2 s h1 h2
    cases s with
    | nil => cases f2 <;> rfl
    | cons c cs =>
      cases f2 with
      | zero => simp at h2
      | succ g =>
        rw [scanMatchesAux, scanMatchesAux]
        cases hm : matchAt (c :: cs) with
        | none =>
          exact ih g cs (by simp at h1; omega) (by simp at h2; omega)
        | some fwj =>
          obtain ⟨full, word, j⟩ := fwj
          simp only []
          congr 1
          refine ih g _ ?_ ?_ <;> · rw [List.length_drop]; simp at h1 h2; omega

theorem scanMatchesAux_skip : ∀ (u v : List Char) (fuel : Nat),
    (u ++ v).length ≤ fuel →
    (∀ k < u.length, ¬ openTag <+: (u ++ v).drop k) →
    scanMatchesAux fuel (u ++ v) = scanMatches v := by
  intro u
  induction u with
  | nil =>
    intro v fuel hf h
    exact scanMatchesAux_congr fuel v.length v (by simpa using hf) (le_refl _)
  | cons c us ih =>
    intro v fuel hf h
    cases fuel with
    | zero => simp at hf
    | succ f =>
      have h0 : ¬ openTag <+: ((c :: us) ++ v) := by simpa using h 0 (by simp)
      have hp : openTag.isPrefixOf (c :: (us ++ v)) = false := by
        by_contra hb
        rw [Bool.not_eq_false] at hb
        exact h0 (isPrefixOf_eq_true _ _ |>.mp hb)
      have hm : matchAt (c :: (us ++ v)) = none := by
        rw [matchAt, hp]
        simp
      show scanMatchesAux (f + 1) (c :: (us ++ v)) = scanMatches v
      rw [scanMatchesAux, hm]
      exact ih v f (by simp at hf ⊢; omega) (fun k hk => by
        have hkk := h (k + 1) (by simp; omega)
        simpa using hkk)

theorem scanMatches_append_skip (u v : List Char)
    (h : ∀ k < u.length, ¬ openTag <+: (u ++ v).drop k) :
    scanMatches (u ++ v) = scanMatches v :=
  scanMatchesAux_skip u v (u ++ v).length (le_refl _) h

theorem scanMatches_nil_of_noPct (u : List Char) (hu : ('%') ∉ u) : scanMatches u = [] := by
  have h := scanMatches_append_skip u []
    (noOcc_of_noPct u [] openTag (by rw [openTag_eq]; rfl) hu (by simp))
  simpa using h

theorem scanMatches_placeholder (w r : List Char) (hw : ('%') ∉ w) (hwn : ('\n') ∉ w)
    (hrt : ('%') ∉ (r.takeWhile (fun c => c ≠ '\n'))) :
    scanMatches (openTag ++ (w ++ (closeTag ++ r))) =
      (openTag ++ w ++ closeTag, w) :: scanMatches r := by
  have hm : matchAt (('<') :: (('%') :: ('=') :: (' ') :: (w ++ (closeTag ++ r)))) =
      some (openTag ++ w ++ closeTag, w, w.length) := matchAt_placeholder w r hw hwn hrt
  show scanMatchesAux (openTag ++ (w ++ (closeTag ++ r))).length
      (openTag ++ (w ++ (closeTag ++ r))) = _
  rw [show openTag ++ (w ++ (closeTag ++ r)) =
    ('<') :: (('%') :: ('=') :: (' ') :: (w ++ (closeTag ++ r))) from rfl]
  simp only [List.length_cons]
  rw [scanMatchesAux, hm]
  simp only []
  congr 1
  have hdrop : (('%') :: ('=') :: (' ') :: (w ++ (closeTag ++ r))).drop (w.length + 6) = r := by
    rw [show ('%') :: ('=') :: (' ') :: (w ++ (closeTag ++ r)) =
      ((('%') :: ('=') :: (' ') :: w) ++ closeTag) ++ r from by simp [closeTag_eq]]
    rw [show w.length + 6 = ((('%') :: ('=') :: (' ') :: w) ++ closeTag).length from by
      simp [closeTag_eq]
      try omega]
    exact List.drop_left _ _
  rw [hdrop]
  show scanMatchesAux _ r = scanMatchesAux r.length r
  apply scanMatchesAux_congr
  · simp [closeTag_eq]
    try omega
  · exact le_refl _

theorem word_close_not_prefix_G : ∀ (a b t : List Char), ('%') ∉ a → ('%') ∉ b → a ≠ b →
    ¬ (b ++ closeTag <+: a ++ (closeTag ++ t)) := by
  intro a
  induction a with
  | nil =>
    intro b t ha hb hab h
    cases b with
    | nil => exact hab rfl
    | cons y bs =>
      rw [List.nil_append, closeTag_eq] at h
      simp only [List.cons_append, List.nil_append, List.cons_prefix_cons] at h
      obtain ⟨hy, h⟩ := h
      cases bs with
      | nil =>
        simp only [List.nil_append, List.cons_prefix_cons] at h
        exact absurd h.1 (by decide)
      | cons z bs' =>
        simp only [List.cons_append, List.cons_prefix_cons] at h
        exact hb (by rw [h.1]; simp)
  | cons x as ih =>
    intro b t ha hb hab h
    cases b with
    | nil =>
      rw [List.nil_append, closeTag_eq] at h
      simp only [List.cons_append, List.cons_prefix_cons] at h
      obtain ⟨hx, h⟩ := h
      cases as with
      | nil =>
        simp only [List.nil_append, List.cons_prefix_cons] at h
        exact absurd h.1 (by decide)
      | cons w as' =>
        simp only [List.cons_append, List.cons_prefix_cons] at h
        exact ha (by rw [← h.1]; simp)
    | cons y bs =>
      simp only [List.cons_append, List.cons_prefix_cons] at h
      obtain ⟨hy, h⟩ := h
      subst hy
      refine ih bs t (fun hc => ha (by simp [hc])) (fun hc => hb (by simp [hc]))
        (fun he => hab (by rw [he])) h

theorem head_openTag_ne_pct (X : List Char) : (openTag ++ X)[0]? ≠ some ('%') := by
  rw [show (openTag ++ X)[0]? = some ('<') from rfl]
  decide

theorem head_append_ne_pct (u v : List Char) (hu : ('%') ∉ u) (hv : v[0]? ≠ some ('%')) :
    (u ++ v)[0]? ≠ some ('%') := by
  cases u with
  | nil => simpa using hv
  | cons c cs =>
    intro hc
    rw [List.getElem?_append_left (by simp)] at hc
    exact hu (mem_of_getElemOpt _ _ _ hc)

theorem noOcc_open_placeholder (a b v : List Char) (ha : ('%') ∉ a) (hb : ('%') ∉ b)
    (hab : a ≠ b) :
    ∀ k < openTag.length,
      ¬ (openTag ++ (b ++ closeTag)) <+: (openTag ++ (a ++ (closeTag ++ v))).drop k := by
  intro k hk h
  have c0 := char_of_prefix_drop _ _ k 0 ('<') (by rfl) h
  rw [Nat.add_zero] at c0
  rw [List.getElem?_append_left hk] at c0
  have hk0 : k = 0 := by
    have honly : ∀ i < 4, openTag[i]? = some ('<') → i = 0 := by decide
    exact honly k (by simpa [openTag_eq] using hk) c0
  subst hk0
  rw [List.drop_zero] at h
  rw [List.prefix_append_right_inj] at h
  exact word_close_not_prefix_G a b v ha hb hab h

theorem scanMatches_two (pre a m1 m2 b post : List Char)
    (hpre : ('%') ∉ pre) (ha : ('%') ∉ a) (hm1 : ('%') ∉ m1) (hm2 : ('%') ∉ m2)
    (hb : ('%') ∉ b) (hpost : ('%') ∉ post)
    (hna : ('\n') ∉ a) (hnb : ('\n') ∉ b) (hnm1 : ('\n') ∉ m1) :
    scanMatches (pre ++ (openTag ++ (a ++ (closeTag ++
        (m1 ++ (('\n') :: (m2 ++ (openTag ++ (b ++ (closeTag ++ post)))))))))) =
      [(openTag ++ a ++ closeTag, a), (openTag ++ b ++ closeTag, b)] := by
  rw [scanMatches_append_skip pre _
    (noOcc_of_noPct pre _ openTag (by rfl) hpre (head_openTag_ne_pct _))]
  rw [scanMatches_placeholder a _ ha hna (by
    rw [takeWhile_append_of_all _ m1 _ (fun c hc => by
      simp only [ne_eq, decide_not, Bool.not_eq_eq_eq_not, Bool.not_true, decide_eq_false_iff_not]
      intro he
      exact hnm1 (he ▸ hc))]
    simp [List.takeWhile_cons]
    exact hm1)]
  rw [show m1 ++ (('\n') :: (m2 ++ (openTag ++ (b ++ (closeTag ++ post))))) =
    (m1 ++ (('\n') :: m2)) ++ (openTag ++ (b ++ (closeTag ++ post))) from by simp]
  rw [scanMatches_append_skip _ _
    (noOcc_of_noPct _ _ openTag (by rfl)
      (by
        intro hc
        rcases List.mem_append.mp hc with h | h
        · exact hm1 h
        · rcases List.mem_cons.mp h with h | h
          · exact absurd h (by decide)
          · exact hm2 h)
      (head_openTag_ne_pct _))]
  rw [scanMatches_placeholder b post hb hnb (by
    intro hc
    exact hpost ((List.takeWhile_sublist _).subset hc))]
  rw [scanMatches_nil_of_noPct post hpost]

theorem headOpt_ne_pct (X : List Char) (c : Char) (hX : X[0]? = some c) (hc : c ≠ ('%')) :
    X[0]? ≠ some ('%') := by
  rw [hX]
  simp [hc]

theorem head_append_left (u v : List Char) (c : Char) (h : u[0]? = some c) :
    (u ++ v)[0]? = some c := by
  cases u with
  | nil => simp at h
  | cons d ds => simpa using h

theorem noOcc_fullB_in_block (pre a m1 m2 b post : List Char)
    (hpre : ('%') ∉ pre) (ha : ('%') ∉ a) (hm1 : ('%') ∉ m1) (hm2 : ('%') ∉ m2)
    (hb : ('%') ∉ b) (hab : a ≠ b) :
    ∀ k < (pre ++ (guardPre ++ (a ++ (guardMid ++ (openTag ++ (a ++ (closeTag ++
        (guardEnd ++ (m1 ++ (('\n') :: m2)))))))))).length,
      ¬ (openTag ++ b ++ closeTag) <+:
        ((pre ++ (guardPre ++ (a ++ (guardMid ++ (openTag ++ (a ++ (closeTag ++
            (guardEnd ++ (m1 ++ (('\n') :: m2)))))))))) ++
          ((openTag ++ b ++ closeTag) ++ post)).drop k := by
  have h11 : ∀ k < m2.length, ¬ (openTag ++ b ++ closeTag) <+:
      (m2 ++ ((openTag ++ b ++ closeTag) ++ post)).drop k :=
    noOcc_of_noPct m2 _ _ rfl hm2 (headOpt_ne_pct _ ('<') (head_append_left _ _ _ (head_append_left _ _ _ (head_append_left _ _ _ rfl))) (by decide))
  have h10 : ∀ k < (['\n'] : List Char).length, ¬ (openTag ++ b ++ closeTag) <+:
      ((['\n'] : List Char) ++ (m2 ++ ((openTag ++ b ++ closeTag) ++ post))).drop k :=
    noOcc_of_noPct _ _ _ rfl (by decide)
      (head_append_ne_pct m2 _ hm2 (headOpt_ne_pct _ ('<') (head_append_left _ _ _ (head_append_left _ _ _ (head_append_left _ _ _ rfl))) (by decide)))
  have c10 := noOcc_append_compose (['\n'] : List Char) m2 ((openTag ++ b ++ closeTag) ++ post)
    (openTag ++ b ++ closeTag) h10 h11
  have h9 : ∀ k < m1.length, ¬ (openTag ++ b ++ closeTag) <+:
      (m1 ++ (((['\n'] : List Char) ++ m2) ++ ((openTag ++ b ++ closeTag) ++ post))).drop k :=
    noOcc_of_noPct m1 _ _ rfl hm1 (headOpt_ne_pct _ ('\n') (head_append_left _ _ _ (head_append_left _ _ _ rfl)) (by decide))
  have c9 := noOcc_append_compose m1 ((['\n'] : List Char) ++ m2)
    ((openTag ++ b ++ closeTag) ++ post) (openTag ++ b ++ closeTag) h9 c10
  have h8 : ∀ k < guardEnd.length, ¬ (openTag ++ b ++ closeTag) <+:
      (guardEnd ++ ((m1 ++ ((['\n'] : List Char) ++ m2)) ++
        ((openTag ++ b ++ closeTag) ++ post))).drop k :=
    noOcc_concrete guardEnd _ _ rfl rfl (by decide) (by decide) (by decide)
  have c8 := noOcc_append_compose guardEnd (m1 ++ ((['\n'] : List Char) ++ m2))
    ((openTag ++ b ++ closeTag) ++ post) (openTag ++ b ++ closeTag) h8 c9
  have h7 : ∀ k < closeTag.length, ¬ (openTag ++ b ++ closeTag) <+:
      (closeTag ++ ((guardEnd ++ (m1 ++ ((['\n'] : List Char) ++ m2))) ++
        ((openTag ++ b ++ closeTag) ++ post))).drop k :=
    noOcc_of_no_lt closeTag _ _ rfl (by decide)
  have c7 := noOcc_append_compose closeTag (guardEnd ++ (m1 ++ ((['\n'] : List Char) ++ m2)))
    ((openTag ++ b ++ closeTag) ++ post) (openTag ++ b ++ closeTag) h7 c8
  have h6 : ∀ k < a.length, ¬ (openTag ++ b ++ closeTag) <+:
      (a ++ ((closeTag ++ (guardEnd ++ (m1 ++ ((['\n'] : List Char) ++ m2)))) ++
        ((openTag ++ b ++ closeTag) ++ post))).drop k :=
    noOcc_of_noPct a _ _ rfl ha (headOpt_ne_pct _ (' ') (head_append_left _ _ _ (head_append_left _ _ _ rfl)) (by decide))
  have c6 := noOcc_append_compose a (closeTag ++ (guardEnd ++ (m1 ++ ((['\n'] : List Char) ++ m2))))
    ((openTag ++ b ++ closeTag) ++ post) (openTag ++ b ++ closeTag) h6 c7
  have h5 : ∀ k < openTag.length, ¬ (openTag ++ b ++ closeTag) <+:
      (openTag ++ ((a ++ (closeTag ++ (guardEnd ++ (m1 ++ ((['\n'] : List Char) ++ m2))))) ++
        ((openTag ++ b ++ closeTag) ++ post))).drop k := by
    intro k hk hcon
    refine noOcc_open_placeholder a b
      (guardEnd ++ (m1 ++ ((['\n'] : List Char) ++ (m2 ++ ((openTag ++ b ++ closeTag) ++ post)))))
      ha hb hab k hk ?_
    simpa [List.append_assoc] using hcon
  have c5 := noOcc_append_compose openTag
    (a ++ (closeTag ++ (guardEnd ++ (m1 ++ ((['\n'] : List Char) ++ m2)))))
    ((openTag ++ b ++ closeTag) ++ post) (openTag ++ b ++ closeTag) h5 c6
  have h4 : ∀ k < guardMid.length, ¬ (openTag ++ b ++ closeTag) <+:
      (guardMid ++ ((openTag ++ (a ++ (closeTag ++ (guardEnd ++ (m1 ++ ((['\n'] : List Char) ++ m2)))))) ++
        ((openTag ++ b ++ closeTag) ++ post))).drop k :=
    noOcc_of_no_lt guardMid _ _ rfl (by decide)
  have c4 := noOcc_append_compose guardMid
    (openTag ++ (a ++ (closeTag ++ (guardEnd ++ (m1 ++ ((['\n'] : List Char) ++ m2))))))
    ((openTag ++ b ++ closeTag) ++ post) (openTag ++ b ++ closeTag) h4 c5
  have h3 : ∀ k < a.length, ¬ (openTag ++ b ++ closeTag) <+:
      (a ++ ((guardMid ++ (openTag ++ (a ++ (closeTag ++ (guardEnd ++ (m1 ++ ((['\n'] : List Char) ++ m2))))))) ++
        ((openTag ++ b ++ closeTag) ++ post))).drop k :=
    noOcc_of_noPct a _ _ rfl ha (headOpt_ne_pct _ (' ') (head_append_left _ _ _ (head_append_left _ _ _ rfl)) (by decide))
  have c3 := noOcc_append_compose a
    (guardMid ++ (openTag ++ (a ++ (closeTag ++ (guardEnd ++ (m1 ++ ((['\n'] : List Char) ++ m2)))))))
    ((openTag ++ b ++ closeTag) ++ post) (openTag ++ b ++ closeTag) h3 c4
  have h2 : ∀ k < guardPre.length, ¬ (openTag ++ b ++ closeTag) <+:
      (guardPre ++ ((a ++ (guardMid ++ (openTag ++ (a ++ (closeTag ++ (guardEnd ++ (m1 ++ ((['\n'] : List Char) ++ m2)))))))) ++
        ((openTag ++ b ++ closeTag) ++ post))).drop k :=
    noOcc_concrete guardPre _ _ rfl rfl (by decide) (by decide) (by decide)
  have c2 := noOcc_append_compose guardPre
    (a ++ (guardMid ++ (openTag ++ (a ++ (closeTag ++ (guardEnd ++ (m1 ++ ((['\n'] : List Char) ++ m2))))))))
    ((openTag ++ b ++ closeTag) ++ post) (openTag ++ b ++ closeTag) h2 c3
  have h1 : ∀ k < pre.length, ¬ (openTag ++ b ++ closeTag) <+:
      (pre ++ ((guardPre ++ (a ++ (guardMid ++ (openTag ++ (a ++ (closeTag ++ (guardEnd ++ (m1 ++ ((['\n'] : List Char) ++ m2))))))))) ++
        ((openTag ++ b ++ closeTag) ++ post))).drop k :=
    noOcc_of_noPct pre _ _ rfl hpre
      (headOpt_ne_pct _ ('<') (head_append_left _ _ _ (head_append_left _ _ _ rfl)) (by decide))
  have c1 := noOcc_append_compose pre
    (guardPre ++ (a ++ (guardMid ++ (openTag ++ (a ++ (closeTag ++ (guardEnd ++ (m1 ++ ((['\n'] : List Char) ++ m2)))))))))
    ((openTag ++ b ++ closeTag) ++ post) (openTag ++ b ++ closeTag) h1 c2
  intro k hk hcon
  refine c1 k ?_ ?_
  · simpa [List.append_assoc] using hk
  · simpa [List.append_assoc] using hcon

/-- C3 counterexample: a template containing the two distinct placeholders
on one line is rewritten with a single guard wrapping the whole span, not
two guards, because the greedy capture of the placeholder regex runs to the
last close delimiter of the line. -/
theorem injectGuards_same_line_counterexample :
    includesStr (("<%= a %> <%= b %>").data) (openTag ++ (("a").data) ++ closeTag) = true ∧
    includesStr (("<%= a %> <%= b %>").data) (openTag ++ (("b").data) ++ closeTag) = true ∧
    (("a").data) ≠ (("b").data) ∧
    countOcc guardPre (injectGuards (("<%= a %> <%= b %>").data)) = 1 := by
  decide

/-- C3 (amended): for a template whose two distinct placeholders lie on
distinct lines and whose surrounding text carries no further placeholder
delimiter characters, the injected output wraps each of the two placeholders
in exactly one conditional definition guard, in place, with no nesting: the
output is literally the template with each placeholder replaced by its
single guard. -/
theorem injectGuards_two_lines_two_guards (pre a m1 m2 b post : List Char)
    (hpre : ('%') ∉ pre) (ha : ('%') ∉ a) (hm1 : ('%') ∉ m1) (hm2 : ('%') ∉ m2)
    (hb : ('%') ∉ b) (hpost : ('%') ∉ post)
    (hna : ('\n') ∉ a) (hnb : ('\n') ∉ b) (hnm1 : ('\n') ∉ m1) (hab : a ≠ b) :
    injectGuards (pre ++ (openTag ++ (a ++ (closeTag ++
        (m1 ++ (('\n') :: (m2 ++ (openTag ++ (b ++ (closeTag ++ post)))))))))) =
      pre ++ (guardFor a (openTag ++ a ++ closeTag) ++
        (m1 ++ (('\n') :: (m2 ++ (guardFor b (openTag ++ b ++ closeTag) ++ post))))) := by
  unfold injectGuards
  rw [scanMatches_two pre a m1 m2 b post hpre ha hm1 hm2 hb hpost hna hnb hnm1]
  simp only [List.foldl_cons, List.foldl_nil]
  have hA : replaceFirst
      (pre ++ (openTag ++ (a ++ (closeTag ++
        (m1 ++ (('\n') :: (m2 ++ (openTag ++ (b ++ (closeTag ++ post))))))))))
      (openTag ++ a ++ closeTag) (guardFor a (openTag ++ a ++ closeTag)) =
      pre ++ (guardFor a (openTag ++ a ++ closeTag) ++
        (m1 ++ (('\n') :: (m2 ++ (openTag ++ (b ++ (closeTag ++ post))))))) := by
    rw [show pre ++ (openTag ++ (a ++ (closeTag ++
        (m1 ++ (('\n') :: (m2 ++ (openTag ++ (b ++ (closeTag ++ post))))))))) =
      pre ++ ((openTag ++ a ++ closeTag) ++
        (m1 ++ (('\n') :: (m2 ++ (openTag ++ (b ++ (closeTag ++ post))))))) from by
      simp [List.append_assoc]]
    rw [replaceFirst_append_of_noOcc pre _ _ _
      (noOcc_of_noPct pre _ _ rfl hpre
        (headOpt_ne_pct _ ('<') (head_append_left _ _ _ (head_append_left _ _ _ (head_append_left _ _ _ rfl))) (by decide)))]
    rw [replaceFirst_at_head _ _ _ (by simp [closeTag_eq])]
  rw [hA]
  have hB : replaceFirst
      (pre ++ (guardFor a (openTag ++ a ++ closeTag) ++
        (m1 ++ (('\n') :: (m2 ++ (openTag ++ (b ++ (closeTag ++ post))))))))
      (openTag ++ b ++ closeTag) (guardFor b (openTag ++ b ++ closeTag)) =
      pre ++ (guardFor a (openTag ++ a ++ closeTag) ++
        (m1 ++ (('\n') :: (m2 ++ (guardFor b (openTag ++ b ++ closeTag) ++ post))))) := by
    rw [show pre ++ (guardFor a (openTag ++ a ++ closeTag) ++
        (m1 ++ (('\n') :: (m2 ++ (openTag ++ (b ++ (closeTag ++ post))))))) =
      (pre ++ (guardPre ++ (a ++ (guardMid ++ (openTag ++ (a ++ (closeTag ++
          (guardEnd ++ (m1 ++ (('\n') :: m2)))))))))) ++
        ((openTag ++ b ++ closeTag) ++ post) from by
      simp [guardFor, List.append_assoc]]
    rw [replaceFirst_append_of_noOcc _ _ _ _
      (noOcc_fullB_in_block pre a m1 m2 b post hpre ha hm1 hm2 hb hab)]
    rw [replaceFirst_at_head _ _ _ (by simp [closeTag_eq])]
    simp [guardFor, List.append_assoc]
  rw [hB]

/-- Witness for C3 on a concrete two-line template. -/
theorem injectGuards_two_lines_two_guards_witness :
    injectGuards ((("<h1>").data) ++ (openTag ++ ((("title").data) ++ (closeTag ++
        ((("</h1>").data) ++ (('\n') :: ((("<p>").data) ++ (openTag ++ ((("body").data) ++
          (closeTag ++ (("</p>").data))))))))))) =
      (("<h1>").data) ++ (guardFor (("title").data) (openTag ++ (("title").data) ++ closeTag) ++
        ((("</h1>").data) ++ (('\n') :: ((("<p>").data) ++ (guardFor (("body").data)
          (openTag ++ (("body").data) ++ closeTag) ++ (("</p>").data)))))) :=
  injectGuards_two_lines_two_guards _ _ _ _ _ _ (by decide) (by decide) (by decide)
    (by decide) (by decide) (by decide) (by decide) (by decide) (by decide) (by decide)

/-- C8 counterexample: a style fragment in the bundle markup is not inserted
before the closing head marker; the whole fragment lands in front of the
closing body marker instead. -/
theorem inject_style_not_in_head_counterexample :
    includesStr
        (injectBundleHtml (("<head></head><body></body></html>").data) (("<link rel>").data))
        (("<link rel></head>").data) = false ∧
    includesStr
        (injectBundleHtml (("<head></head><body></body></html>").data) (("<link rel>").data))
        (("<link rel></body>").data) = true := by
  decide

/-- C8 (amended): the entire generated bundle markup (style and script parts
alike) is inserted immediately before the first closing body marker of the
template, which is otherwise unchanged; nothing is inserted at the head
marker. -/
theorem inject_bundle_before_body_close (pre post gen : List Char)
    (h : ∀ k < pre.length, ¬ bodyCloseTag <+: (pre ++ (bodyCloseTag ++ post)).drop k) :
    injectBundleHtml (pre ++ (bodyCloseTag ++ post)) gen = pre ++ (gen ++ (bodyCloseTag ++ post)) := by
  unfold injectBundleHtml
  rw [replaceFirst_append_of_noOcc pre (bodyCloseTag ++ post) bodyCloseTag _ h,
    replaceFirst_at_head _ _ _ (by decide)]
  simp [List.append_assoc]

/-- Witness for C8 on a concrete template and bundle fragment. -/
theorem inject_bundle_before_body_close_witness :
    injectBundleHtml (("<head></head><body>").data ++ (bodyCloseTag ++ ("</html>").data))
        (("<script foo>").data) =
      ("<head></head><body>").data ++ (("<script foo>").data ++ (bodyCloseTag ++ ("</html>").data)) :=
  inject_bundle_before_body_close (("<head></head><body>").data) (("</html>").data)
    (("<script foo>").data) (by decide)

/-- Witness for C10: a tsconfig outDir of src/server resolves inside the
source tree and is left untouched; an outDir of dist is removed. -/
theorem clean_skips_src_paths_witness :
    (FsAction.remove (guessCompiledPath (("/app").data) (some (("src/server").data)) (("/app/dist").data)) ∈
        clean (guessCompiledPath (("/app").data) (some (("src/server").data)) (("/app/dist").data)) ↔
      ¬ (srcFragment <:+: guessCompiledPath (("/app").data) (some (("src/server").data)) (("/app/dist").data))) ∧
    (∀ p q, FsAction.remove q ∈ clean p → ¬ (srcFragment <:+: q)) :=
  clean_skips_src_paths (("/app").data) (("/app/dist").data) (some (("src/server").data))

end SuddenlyCompiler
